import Mathlib

/-!
Shallow embedding of the scatter-plot core of `multiqc/plots/plotly/scatter.py`
(`ScatterPlot.Dataset.create_figure`): the outlier-annotation selector
(lines 80-112), the legend deduplication pass (lines 116-143) and the
per-point trace emission (lines 145-171).

Data-dependent numerics (`x`, `y`, means, standard deviations) are idealized
as exact rationals.  The threshold accumulator of the search loop is
data-independent, so it is embedded exactly: every IEEE-754 double value taken
by `threshold` under `threshold += 0.2` is a dyadic rational and is written
out literally — the loop tries 25 values, the last being
`5.8000000000000025`; `6.0` itself is never tried, and on exhaustion the
post-loop accumulator `6.000000000000003` is the threshold used for
annotation.  A comparison
`|v - mean| / std > t` with `std > 0` and `t > 0` is embedded as
`(v - mean)^2 > t^2 * var` with `var = std^2`, which is equivalent over the
reals and keeps every predicate decidable; `np.std(vs) == 0` is equivalent to
`var vs = 0`.  Python dict fields that may be absent are `Option`s; Python
truthiness of an optional string (`if annotation:`, `if group:`) is
"present and non-empty".  The dict key `annotation` is modelled by the field
`annot`; `"annotation" in el` is `annot.isSome`.
-/

/-- One plotted observation: the point dict of `scatter.py`.  `annot` models
the `annotation` dict key (`none` = key absent). -/
structure Point where
  x : ℚ := 0
  y : ℚ := 0
  name : String := ""
  color : Option String := none
  group : Option String := none
  marker_size : Option ℚ := none
  marker_line_width : Option ℚ := none
  opacity : Option ℚ := none
  annotate : Option Bool := none
  hide_in_legend : Bool := false
  annot : Option String := none
deriving DecidableEq

/-- Python truthiness of an optional string: present and non-empty. -/
def truthyStr : Option String → Bool
  | some s => decide (s ≠ "")
  | none => false

/-- `MAX_ANNOTATIONS` (line 80). -/
def maxAnnotations : ℕ := 10

/-- `len([el for el in self.points if "annotation" in el])` (lines 81, 112):
counts key presence regardless of the value. -/
def nAnnotated (pts : List Point) : ℕ :=
  List.countP (fun p => p.annot.isSome) pts

/-- Count of points whose annotation is present and non-empty. -/
def nonEmptyAnnCount (pts : List Point) : ℕ :=
  List.countP (fun p => truthyStr p.annot) pts

/-- `x.get("annotate", True) is not False` (line 85). -/
def isCandidate (p : Point) : Bool := decide (p.annotate ≠ some false)

/-- The candidate sublist (line 85), in original order. -/
def candidates (pts : List Point) : List Point :=
  pts.filter isCandidate

/-- `np.mean`, idealized over ℚ (division by zero yields 0 in ℚ, used only
on empty input where the code path is observably equivalent). -/
def qMean (vs : List ℚ) : ℚ := vs.sum / (vs.length : ℚ)

/-- Population variance, i.e. the square of `np.std` (lines 88-89). -/
def qVar (vs : List ℚ) : ℚ :=
  qMean (vs.map fun v => (v - qMean vs) ^ 2)

/-- Mean and variance of the candidate x- and y-values. -/
structure Stats where
  mx : ℚ
  vx : ℚ
  my : ℚ
  vy : ℚ
deriving DecidableEq

/-- Lines 86-89: statistics over candidates only. -/
def statsOf (pts : List Point) : Stats :=
  { mx := qMean ((candidates pts).map Point.x)
    vx := qVar ((candidates pts).map Point.x)
    my := qMean ((candidates pts).map Point.y)
    vy := qVar ((candidates pts).map Point.y) }

/-- `x_z_score > t or y_z_score > t` (lines 96-97, 101, 110): an axis with
zero standard deviation contributes a zero z-score (`np.zeros_like`), hence
never exceeds a positive threshold; otherwise `|v-m|/s > t ↔ (v-m)^2 > t^2*s^2`. -/
def isOutlierAt (s : Stats) (t : ℚ) (p : Point) : Bool :=
  (decide (s.vx ≠ 0) && decide (t ^ 2 * s.vx < (p.x - s.mx) ^ 2))
    || (decide (s.vy ≠ 0) && decide (t ^ 2 * s.vy < (p.y - s.my) ^ 2))

/-- `np.count_nonzero((x_z_scores > threshold) | (y_z_scores > threshold))`
(line 101). -/
def nOutliersAt (pts : List Point) (t : ℚ) : ℕ :=
  ((candidates pts).filter (isOutlierAt (statsOf pts) t)).length

/-- The break condition of the threshold loop (line 103). -/
def capOK (pts : List Point) (t : ℚ) : Bool :=
  decide (nAnnotated pts + nOutliersAt pts t ≤ maxAnnotations)

/-- The IEEE-754 double nearest `0.2` — the literal added by
`threshold += 0.2` at line 106 — as an exact dyadic rational
(`0.200000000000000011102230246251565…`). -/
def dblFifth : ℚ := 3602879701896397 / 18014398509481984

/-- The 25 thresholds actually tried by the loop (lines 99-106): the exact
values of the IEEE double accumulator starting at `1.0` with the rounded
additions of `0.2` (`dblFifth`).  Each entry is the dyadic rational equal to
the double; the displayed decimal value is given alongside.  The last tried
value is `5.8000000000000025`; `6.0` is never tried, because the next
accumulated value `6.000000000000003` exceeds `6.0` and ends the
`while threshold <= 6.0` loop. -/
def thresholdTried : List ℚ :=
  [1,                                          -- 1.0
   5404319552844595 / 4503599627370496,        -- 1.2
   3152519739159347 / 2251799813685248,        -- 1.4
   7205759403792793 / 4503599627370496,        -- 1.5999999999999999
   2026619832316723 / 1125899906842624,        -- 1.7999999999999998
   9007199254740991 / 4503599627370496,        -- 1.9999999999999998
   4953959590107545 / 2251799813685248,        -- 2.1999999999999997
   5404319552844595 / 2251799813685248,        -- 2.4
   5854679515581645 / 2251799813685248,        -- 2.6
   6305039478318695 / 2251799813685248,        -- 2.8000000000000003
   6755399441055745 / 2251799813685248,        -- 3.0000000000000004
   7205759403792795 / 2251799813685248,        -- 3.2000000000000006
   7656119366529845 / 2251799813685248,        -- 3.400000000000001
   8106479329266895 / 2251799813685248,        -- 3.600000000000001
   8556839292003945 / 2251799813685248,        -- 3.800000000000001
   4503599627370497 / 1125899906842624,        -- 4.000000000000001
   2364389804369511 / 562949953421312,         -- 4.200000000000001
   4953959590107547 / 1125899906842624,        -- 4.400000000000001
   647392446434509 / 140737488355328,          -- 4.600000000000001
   5404319552844597 / 1125899906842624,        -- 4.800000000000002
   2814749767106561 / 562949953421312,         -- 5.000000000000002
   5854679515581647 / 1125899906842624,        -- 5.200000000000002
   1519964874237543 / 281474976710656,         -- 5.400000000000002
   6305039478318697 / 1125899906842624,        -- 5.600000000000002
   3265109729843611 / 562949953421312]         -- 5.8000000000000025

/-- The value of the double accumulator `threshold` after the loop exits on
exhaustion: the 26th accumulated value, `6.000000000000003`, which exceeds
`6.0` and thus terminates the `while threshold <= 6.0` loop.  It is the
threshold lines 108-111 annotate with when no tried threshold met the cap. -/
def exhaustThreshold : ℚ := 6755399441055747 / 1125899906842624

/-- The threshold in effect after the loop (lines 99-106): the first tried
threshold satisfying the cap, else the post-loop accumulator value
`exhaustThreshold = 6.000000000000003` — not the last tried value and not
`6.0`. -/
def chosenThreshold (pts : List Point) : ℚ :=
  (thresholdTried.find? (capOK pts)).getD exhaustThreshold

/-- `point["annotation"] = point["name"]` (lines 94, 111): sets the key,
overwriting any previous value. -/
def setAnnot (p : Point) : Point := { p with annot := some p.name }

/-- The outlier selector (lines 80-112), as a pure function returning the
updated point list (the Python mutates the dicts in place). -/
def selectOutliers (pts : List Point) : List Point :=
  if maxAnnotations ≤ nAnnotated pts then pts
  else if (statsOf pts).vx = 0 ∧ (statsOf pts).vy = 0 then
    if (candidates pts).length = 1 then
      pts.map fun p => if isCandidate p then setAnnot p else p
    else pts
  else
    pts.map fun p =>
      if isCandidate p && isOutlierAt (statsOf pts) (chosenThreshold pts) p
      then setAnnot p else p

/-- The legend identity key (lines 118, 132). -/
structure Key where
  color : Option String
  marker_size : Option ℚ
  marker_line_width : Option ℚ
  group : Option String
deriving DecidableEq

def keyOf (p : Point) : Key :=
  { color := p.color
    marker_size := p.marker_size
    marker_line_width := p.marker_line_width
    group := p.group }

/-- Lexicographic comparison of code-point sequences: Python's `<=` on `str`.
(`a <= b` in Python is `not (b < a)` with `<` the strict lexicographic order
on code points, which is exactly this function.) -/
def lexLe : List Char → List Char → Bool
  | [], _ => true
  | _ :: _, [] => false
  | a :: as, b :: bs =>
    if a.toNat < b.toNat then true
    else if b.toNat < a.toNat then false
    else lexLe as bs

/-- Python `<=` on strings. -/
def strLe (a b : String) : Prop := lexLe a.data b.data = true

instance : DecidableRel strLe := fun a b => by unfold strLe; infer_instance

/-- `sorted(names_by_legend_key.get(key))` (lines 116-119, 135): the sorted
list of the distinct names among all points carrying the key. -/
def legendNames (pts : List Point) (k : Key) : List String :=
  List.insertionSort strLe
    (((pts.filter fun p => decide (keyOf p = k)).map Point.name).dedup)

/-- `if group: label = f"{group}: {label}"` (lines 137-138): the prefix is
applied only when the group string is present and non-empty (truthiness). -/
def withGroup (g : Option String) (base : String) : String :=
  match g with
  | some s => if s = "" then base else s ++ ": " ++ base
  | none => base

/-- The label before cropping (lines 135-138). -/
def rawLabel (all : List Point) (p : Point) : String :=
  withGroup p.group (String.intercalate ", " (legendNames all (keyOf p)))

/-- `MAX_WIDTH` cropping (lines 139-141). -/
def crop (s : String) : String :=
  if 60 < s.length then s.take 60 ++ "..." else s

/-- The per-point legend pass (lines 122-143): one forward traversal with the
`in_legend` set of seen keys; yields `(show_in_legend, name)` per point.
`layout.showlegend` is set to `True` unconditionally at line 120. -/
def legendGo (all : List Point) : List Point → List Key → List (Bool × String)
  | [], _ => []
  | p :: rest, seen =>
    if p.hide_in_legend = false ∧ keyOf p ∉ seen then
      (true, crop (rawLabel all p)) :: legendGo all rest (keyOf p :: seen)
    else
      (false, p.name) :: legendGo all rest seen

def legendDecisions (pts : List Point) : List (Bool × String) :=
  legendGo pts pts []

/-- Number of points with key `k` that are marked `show_in_legend = true`. -/
def shownCountKey (pts : List Point) (k : Key) : ℕ :=
  List.countP (fun pd => decide (keyOf pd.1 = k) && pd.2.1)
    (pts.zip (legendDecisions pts))

/-- The claim-relevant parts of one emitted `go.Scatter` trace
(lines 161-171). -/
structure Trace where
  tx : ℚ
  ty : ℚ
  tname : String
  ttext : String
  showlegend : Bool
  mode : Option String
deriving DecidableEq

/-- Lines 145-171: `params["mode"] = "markers+text"` only under `if annotation:`
(truthiness); `text=[annotation or name]` likewise falls back to the name for
an absent or empty annotation; `mode = none` means the default mode from
`trace_params` is kept. -/
def mkTrace (p : Point) (d : Bool × String) : Trace :=
  { tx := p.x
    ty := p.y
    tname := d.2
    ttext := if truthyStr p.annot then p.annot.getD "" else p.name
    showlegend := d.1
    mode := if truthyStr p.annot then some ("markers+text") else none }

/-- `create_figure` pipeline: the selector mutates the points, then the
legend pass and trace emission read the updated list. -/
def figureTraces (pts : List Point) : List Trace :=
  List.zipWith mkTrace (selectOutliers pts) (legendDecisions (selectOutliers pts))

/-- Did the threshold search exhaust its range without meeting the cap? -/
def searchExhausted (pts : List Point) : Bool :=
  (thresholdTried.find? (capOK pts)).isNone

/-! Concrete inputs used in counterexamples and witnesses.  `ex1`: 40 points,
9 pre-annotated, with one extreme point per axis (`z^2 = 39` on the extreme
axis, since for a one-hot list of `n` values the population z-score squared of
the hot entry is `n - 1`).  `ex2`: the same with 38 points (`z^2 = 37`). -/

def pA : Point := { x := 40, name := "A" }
def pB : Point := { y := 40, name := "B" }
def pAnn : Point := { name := "p", annot := some "p" }
def pZ : Point := { name := "z" }
def ex1 : List Point := pA :: pB :: (List.replicate 9 pAnn ++ List.replicate 29 pZ)

def pA2 : Point := { x := 38, name := "A" }
def pB2 : Point := { y := 38, name := "B" }
def ex2 : List Point := pA2 :: pB2 :: (List.replicate 9 pAnn ++ List.replicate 27 pZ)

def p3 : Point := { name := "A", annot := some "custom" }
def ex3 : List Point := [p3]
def pW3 : Point := { name := "w", annot := some "w" }

def pLong : Point := { name := String.mk (List.replicate 65 'a') }
def pHidden : Point := { name := "B", color := some "red", hide_in_legend := true }
def pEGroup : Point := { name := "C", group := some "" }
def ex4 : List Point := [pLong, pHidden, pEGroup]
def exW4 : List Point := [{ name := "b" }, { name := "a" }]

def pX5 : Point := { name := "x", annotate := some false, annot := some "x" }
def ex5 : List Point := { name := "A" } :: List.replicate 10 pX5
def pW5 : Point := { name := "s" }

def pW6 : Point := { name := "w6" }
def q6 : Point := { x := 1000, y := 1000, name := "far", annotate := some false }
def q6x : Point := { name := "near", annotate := some false }

def ex7 : List Point := [{ name := "A", annotate := some false, annot := some "" }]

def pNC : Point := { name := "n", annotate := some false }

def pW9 : Point := { name := String.mk (List.replicate 70 'b') }

def pNC2 : Point := { name := "m", annotate := some false, annot := some "m" }
def exW7 : List Point := [pNC2]
def trW7 : Trace :=
  { tx := 0, ty := 0, tname := "m", ttext := "m", showlegend := true
    mode := some ("markers+text") }

/-! ### Basic evaluation lemmas -/

lemma qMean_nil : qMean [] = 0 := by simp [qMean]

lemma qVar_nil : qVar [] = 0 := by simp [qVar, qMean_nil, qMean]

lemma qMean_singleton (a : ℚ) : qMean [a] = a := by simp [qMean]

lemma qVar_singleton (a : ℚ) : qVar [a] = 0 := by
  simp [qVar, qMean_singleton, qMean]

lemma statsOf_nil_cands {pts : List Point} (h : candidates pts = []) :
    statsOf pts = ⟨0, 0, 0, 0⟩ := by
  rw [statsOf, h]; simp [qMean_nil, qVar_nil]

lemma selectOutliers_nil_cands {pts : List Point} (h : candidates pts = []) :
    selectOutliers pts = pts := by
  by_cases h10 : maxAnnotations ≤ nAnnotated pts
  · rw [selectOutliers, if_pos h10]
  · rw [selectOutliers, if_neg h10, statsOf_nil_cands h]
    simp [h]

/-- Every point of the input is either returned unchanged by the selector or
returned with its annotation set to its own name; position is preserved. -/
lemma selectOutliers_getElem? (pts : List Point) (i : ℕ) (p : Point)
    (h : pts[i]? = some p) :
    (selectOutliers pts)[i]? = some p
      ∨ (selectOutliers pts)[i]? = some (setAnnot p) := by
  rw [selectOutliers]
  split
  · exact Or.inl h
  · split
    · split
      · rw [List.getElem?_map, h, Option.map_some']
        by_cases hc : isCandidate p = true
        · exact Or.inr (by rw [if_pos hc])
        · exact Or.inl (by rw [if_neg hc])
      · exact Or.inl h
    · rw [List.getElem?_map, h, Option.map_some']
      by_cases hc : (isCandidate p && isOutlierAt (statsOf pts) (chosenThreshold pts) p) = true
      · exact Or.inr (by rw [if_pos hc])
      · exact Or.inl (by rw [if_neg hc])

/-! ### C8 -/

/-- C8: the selector is total; on an empty point list, or on any list whose
candidate subset is empty (the empty-sequence standard deviation being treated
as zero spread), it performs no work and adds no annotation. -/
theorem selector_no_candidates_no_work :
    selectOutliers [] = []
    ∧ ∀ pts : List Point, candidates pts = [] → selectOutliers pts = pts :=
  ⟨selectOutliers_nil_cands rfl, fun _ h => selectOutliers_nil_cands h⟩

/-- Witness for C8 at a one-point list whose sole point has `annotate = false`. -/
theorem selector_no_candidates_no_work_w :
    candidates [pNC] = [] ∧ selectOutliers [pNC] = [pNC] :=
  ⟨by decide, selector_no_candidates_no_work.2 [pNC] (by decide)⟩

/-! ### C3 -/

/-- C3 (amended): the selector never removes an annotation — every point is
returned either unchanged or with its annotation set to its own name, so an
annotated point stays annotated; but a selected point may have a pre-existing
annotation value overwritten by its name. -/
theorem selector_annot_frame :
    ∀ (pts : List Point) (i : ℕ) (p : Point), pts[i]? = some p →
      ∃ p', (selectOutliers pts)[i]? = some p'
        ∧ (p' = p ∨ p' = setAnnot p)
        ∧ (p.annot.isSome = true → p'.annot.isSome = true) := by
  intro pts i p h
  rcases selectOutliers_getElem? pts i p h with h' | h'
  · exact ⟨p, h', Or.inl rfl, fun hs => hs⟩
  · exact ⟨setAnnot p, h', Or.inr rfl, fun _ => by simp [setAnnot]⟩

/-- Witness for C3 at a one-point list with a pre-existing annotation. -/
theorem selector_annot_frame_w :
    ([pW3][0]? = some pW3)
    ∧ ∃ p', (selectOutliers [pW3])[0]? = some p'
        ∧ (p' = pW3 ∨ p' = setAnnot pW3)
        ∧ (pW3.annot.isSome = true → p'.annot.isSome = true) :=
  ⟨rfl, selector_annot_frame [pW3] 0 pW3 rfl⟩

lemma select_ex3 : selectOutliers ex3 = [setAnnot p3] := by
  have h10 : ¬ (maxAnnotations ≤ nAnnotated ex3) := by decide
  have hc : candidates ex3 = [p3] := by decide
  have hs : statsOf ex3 = ⟨0, 0, 0, 0⟩ := by
    rw [statsOf, hc]
    simp [qMean_singleton, qVar_singleton, p3]
  rw [selectOutliers, if_neg h10, hs]
  simp only [hc]
  simp [ex3, isCandidate, p3]

/-- C3 counterexample: a lone point with pre-existing annotation `"custom"`
has that value overwritten with its name `"A"` by the selector (degenerate
single-candidate branch), so the pre-existing value does not survive. -/
theorem selector_annot_frame_cex :
    ex3.map (fun p => p.annot) = [some "custom"]
    ∧ (selectOutliers ex3).map (fun p => p.annot) = [some "A"]
    ∧ (some "A" : Option String) ≠ some "custom" := by
  refine ⟨by decide, ?_, by decide⟩
  rw [select_ex3]; decide

/-! ### C5 -/

/-- C5 (amended): if fewer than `MAX_ANNOTATIONS` points already carry an
annotation and the dataset has exactly one candidate point, the selector
annotates that candidate with its own name. -/
theorem selector_single_candidate :
    ∀ (pts : List Point) (i : ℕ) (p : Point),
      nAnnotated pts < maxAnnotations → (candidates pts).length = 1 →
      pts[i]? = some p → isCandidate p = true →
      (selectOutliers pts)[i]? = some (setAnnot p) := by
  intro pts i p hlt hlen hi hc
  obtain ⟨c, hcands⟩ := List.length_eq_one.mp hlen
  have hs : statsOf pts = ⟨c.x, 0, c.y, 0⟩ := by
    rw [statsOf, hcands]
    simp [qMean_singleton, qVar_singleton]
  rw [selectOutliers, if_neg (by omega), hs]
  have h1 : ({ mx := c.x, vx := 0, my := c.y, vy := 0 } : Stats).vx = 0
      ∧ ({ mx := c.x, vx := 0, my := c.y, vy := 0 } : Stats).vy = 0 := ⟨rfl, rfl⟩
  rw [if_pos h1, if_pos hlen, List.getElem?_map, hi, Option.map_some', if_pos hc]

/-- Witness for C5 at a one-point list. -/
theorem selector_single_candidate_w :
    nAnnotated [pW5] < maxAnnotations ∧ (candidates [pW5]).length = 1
    ∧ [pW5][0]? = some pW5 ∧ isCandidate pW5 = true
    ∧ (selectOutliers [pW5])[0]? = some (setAnnot pW5) :=
  ⟨by decide, by decide, rfl, by decide,
    selector_single_candidate [pW5] 0 pW5 (by decide) (by decide) rfl (by decide)⟩

/-- C5 counterexample: a dataset with exactly one candidate but ten points
already annotated (all with `annotate = false`): the selector short-circuits
on the cap and the lone candidate is never annotated. -/
theorem selector_single_candidate_cex :
    (candidates ex5).map (fun p => p.name) = ["A"]
    ∧ (selectOutliers ex5).map (fun p => p.annot)
        = none :: List.replicate 10 (some "x") := by decide

/-! ### Legend pass machinery -/

lemma legendGo_shown_label (all : List Point) :
    ∀ (rest : List Point) (seen : List Key) (p : Point) (d : Bool × String),
      (p, d) ∈ rest.zip (legendGo all rest seen) → d.1 = true →
      d.2 = crop (rawLabel all p) := by
  intro rest
  induction rest with
  | nil => intro seen p d h _; simp [legendGo] at h
  | cons q rest ih =>
    intro seen p d h hd
    rw [legendGo] at h
    split at h
    · rw [List.zip_cons_cons] at h
      rcases List.mem_cons.mp h with h | h
      · simp only [Prod.mk.injEq] at h
        obtain ⟨hp, hd2⟩ := h
        subst hp
        rw [hd2]
      · exact ih _ p d h hd
    · rw [List.zip_cons_cons] at h
      rcases List.mem_cons.mp h with h | h
      · simp only [Prod.mk.injEq] at h
        rw [h.2] at hd
        simp at hd
      · exact ih _ p d h hd

lemma legendGo_countKey (all : List Point) (k : Key) :
    ∀ (rest : List Point) (seen : List Key),
      List.countP (fun pd => decide (keyOf pd.1 = k) && pd.2.1)
          (rest.zip (legendGo all rest seen))
        = if k ∈ seen then 0
          else if rest.any (fun p => decide (keyOf p = k) && !p.hide_in_legend) then 1
          else 0 := by
  intro rest
  induction rest with
  | nil => intro seen; simp [legendGo]
  | cons q rest ih =>
    intro seen
    rw [legendGo]
    by_cases hks : k ∈ seen
    · rw [if_pos hks]
      by_cases hb : q.hide_in_legend = false ∧ keyOf q ∉ seen
      · rw [if_pos hb, List.zip_cons_cons, List.countP_cons, ih (keyOf q :: seen),
          if_pos (List.mem_cons_of_mem _ hks)]
        have hk : ¬ (keyOf q = k) := fun h => hb.2 (h ▸ hks)
        simp [hk]
      · rw [if_neg hb, List.zip_cons_cons, List.countP_cons, ih seen, if_pos hks]
        simp
    · rw [if_neg hks]
      by_cases hb : q.hide_in_legend = false ∧ keyOf q ∉ seen
      · rw [if_pos hb, List.zip_cons_cons, List.countP_cons, ih (keyOf q :: seen)]
        by_cases hk : keyOf q = k
        · rw [if_pos (by rw [hk]; exact List.mem_cons_self _ _)]
          have hany : (q :: rest).any (fun p => decide (keyOf p = k) && !p.hide_in_legend)
              = true := by
            simp [List.any_cons, hk, hb.1]
          rw [hany, if_pos rfl]
          simp [hk]
        · have hnm : ¬ (k ∈ keyOf q :: seen) := by
            intro hmem
            rcases List.mem_cons.mp hmem with h | h
            · exact hk h.symm
            · exact hks h
          rw [if_neg hnm]
          have hany : (q :: rest).any (fun p => decide (keyOf p = k) && !p.hide_in_legend)
              = rest.any (fun p => decide (keyOf p = k) && !p.hide_in_legend) := by
            simp [List.any_cons, hk]
          rw [hany]
          simp [hk]
      · have hhead : (decide (keyOf q = k) && !q.hide_in_legend) = false := by
          by_cases hk : keyOf q = k
          · rcases Bool.eq_false_or_eq_true q.hide_in_legend with hh | hh
            · simp [hh]
            · exfalso
              have hmem : keyOf q ∈ seen := by
                by_contra hnm
                exact hb ⟨hh, hnm⟩
              exact hks (hk ▸ hmem)
          · simp [hk]
        rw [if_neg hb, List.zip_cons_cons, List.countP_cons, ih seen, if_neg hks]
        have hany : (q :: rest).any (fun p => decide (keyOf p = k) && !p.hide_in_legend)
            = rest.any (fun p => decide (keyOf p = k) && !p.hide_in_legend) := by
          simp only [List.any_cons, hhead, Bool.false_or]
        rw [hany]
        simp

/-! ### C9 -/

/-- C9: a shown legend label whose full (group-prefixed) text exceeds 60
characters is emitted as exactly its first 60 characters followed by the
3-character `"..."`; at 60 characters or fewer it is emitted unchanged. -/
theorem legend_label_truncation :
    ∀ (pts : List Point) (p : Point) (d : Bool × String),
      (p, d) ∈ pts.zip (legendDecisions pts) → d.1 = true →
      (60 < (rawLabel pts p).length → d.2 = (rawLabel pts p).take 60 ++ "...")
      ∧ ((rawLabel pts p).length ≤ 60 → d.2 = rawLabel pts p) := by
  intro pts p d h hd
  rw [legendDecisions] at h
  have hl := legendGo_shown_label pts pts [] p d h hd
  constructor
  · intro hlen; rw [hl, crop, if_pos hlen]
  · intro hlen; rw [hl, crop, if_neg (by omega)]

set_option maxRecDepth 4000 in
/-- Witness for C9: a 70-character name is cropped to 60 characters plus
`"..."`. -/
theorem legend_label_truncation_w :
    ((pW9, ((true : Bool), String.mk (List.replicate 60 'b') ++ "..."))
        ∈ [pW9].zip (legendDecisions [pW9]))
    ∧ 60 < (rawLabel [pW9] pW9).length
    ∧ (String.mk (List.replicate 60 'b') ++ "...")
        = (rawLabel [pW9] pW9).take 60 ++ "..." :=
  ⟨by decide, by decide,
    (legend_label_truncation [pW9] pW9
        ((true : Bool), String.mk (List.replicate 60 'b') ++ "...")
        (by decide) (by decide)).1 (by decide)⟩

/-! ### C4 -/

/-- C4 (amended): for each legend key, the number of points marked
`show_in_legend = true` is one when some point with that key is not hidden
from the legend and zero otherwise; a shown representative's emitted label is
the sorted comma-join of all distinct names with its key, prefixed by
`"{group}: "` when the group is a non-empty string, and cropped to 60
characters plus `"..."` when longer. -/
theorem legend_one_rep_per_key :
    ∀ (pts : List Point) (k : Key),
      shownCountKey pts k
          = (if pts.any (fun p => decide (keyOf p = k) && !p.hide_in_legend) then 1 else 0)
      ∧ ∀ (p : Point) (d : Bool × String),
          (p, d) ∈ pts.zip (legendDecisions pts) → d.1 = true →
          d.2 = crop (withGroup p.group
            (String.intercalate ", " (legendNames pts (keyOf p)))) := by
  intro pts k
  constructor
  · rw [shownCountKey, legendDecisions, legendGo_countKey pts k pts [],
      if_neg (List.not_mem_nil k)]
  · intro p d h hd
    rw [legendDecisions] at h
    exact legendGo_shown_label pts pts [] p d h hd

/-- Witness for C4: two same-key points named `"b"`, `"a"`; one legend entry,
labelled `"a, b"`. -/
theorem legend_one_rep_per_key_w :
    shownCountKey exW4 (keyOf ({ name := "b" } : Point)) = 1
    ∧ (({ name := "b" } : Point), ((true : Bool), "a, b"))
        ∈ exW4.zip (legendDecisions exW4)
    ∧ ("a, b" : String) = crop (withGroup ({ name := "b" } : Point).group
        (String.intercalate ", " (legendNames exW4 (keyOf ({ name := "b" } : Point))))) := by
  refine ⟨?_, by decide,
    (legend_one_rep_per_key exW4 (keyOf ({ name := "b" } : Point))).2
      ({ name := "b" } : Point) ((true : Bool), "a, b") (by decide) (by decide)⟩
  rw [(legend_one_rep_per_key exW4 (keyOf ({ name := "b" } : Point))).1]
  decide

/-- C4 counterexample: in `ex4`, the key of the hidden point has zero legend
representatives (not exactly one); the 65-character name is emitted cropped,
differing from the sorted comma-join itself; and a point with `group = ""`
gets no `"{group}: "` prefix. -/
theorem legend_one_rep_per_key_cex :
    shownCountKey ex4 (keyOf pHidden) = 0
    ∧ (legendDecisions ex4).map (fun d => d.1) = [true, false, true]
    ∧ (legendDecisions ex4).map (fun d => d.2)
        = [String.mk (List.replicate 60 'a') ++ "...", "B", "C"]
    ∧ String.intercalate ", " (legendNames ex4 (keyOf pLong))
        = String.mk (List.replicate 65 'a')
    ∧ (String.mk (List.replicate 60 'a') ++ "...") ≠ String.mk (List.replicate 65 'a')
    ∧ pEGroup.group = some "" ∧ ("C" : String) ≠ ": C" := by
  set_option maxRecDepth 8000 in decide

/-! ### C10 -/

/-- C10: the name list behind a key's legend label is collected from every
point carrying that key, hidden-from-legend points included, and a key all of
whose points are hidden yields no legend entry at all. -/
theorem legend_names_from_all_points :
    ∀ (pts : List Point) (k : Key),
      (∀ q, q ∈ pts → keyOf q = k → q.name ∈ legendNames pts k)
      ∧ ((∀ q, q ∈ pts → keyOf q = k → q.hide_in_legend = true) →
          shownCountKey pts k = 0) := by
  intro pts k
  constructor
  · intro q hq hk
    rw [legendNames, (List.perm_insertionSort strLe _).mem_iff, List.mem_dedup]
    exact List.mem_map.mpr ⟨q, List.mem_filter.mpr ⟨hq, by simp [hk]⟩, rfl⟩
  · intro hall
    rw [shownCountKey, legendDecisions, legendGo_countKey pts k pts [],
      if_neg (List.not_mem_nil k), if_neg]
    intro hany
    obtain ⟨q, hq, hpred⟩ := List.any_eq_true.mp hany
    rw [Bool.and_eq_true, decide_eq_true_eq] at hpred
    have := hall q hq hpred.1
    rw [this] at hpred
    simp at hpred

/-- Witness for C10 at a one-point list whose sole point is hidden: its name
still appears in the key's name list, yet the key gets no legend entry. -/
theorem legend_names_from_all_points_w :
    pHidden.name ∈ legendNames [pHidden] (keyOf pHidden)
    ∧ shownCountKey [pHidden] (keyOf pHidden) = 0 :=
  ⟨(legend_names_from_all_points [pHidden] (keyOf pHidden)).1 pHidden
      (List.mem_singleton.mpr rfl) rfl,
    (legend_names_from_all_points [pHidden] (keyOf pHidden)).2 (by
      intro q hq _
      rw [List.mem_singleton.mp hq]
      rfl)⟩

/-! ### C7 -/

lemma getq_zipWith {α β γ : Type} (f : α → β → γ) :
    ∀ (as : List α) (bs : List β) (i : ℕ),
      (List.zipWith f as bs)[i]? = (as[i]?).bind fun a => (bs[i]?).map (f a) := by
  intro as
  induction as with
  | nil => intro bs i; simp
  | cons a as ih =>
    intro bs i
    cases bs with
    | nil => simp
    | cons b bs =>
      cases i with
      | zero => simp
      | succ j => simpa using ih bs j

/-- C7 (amended): a point is emitted with trace mode `"markers+text"` exactly
when its annotation value is present and non-empty; mere presence of the
annotation key (e.g. an empty string) does not trigger annotation mode. -/
theorem trace_mode_iff_truthy :
    ∀ (pts : List Point) (i : ℕ) (p : Point) (tr : Trace),
      (selectOutliers pts)[i]? = some p → (figureTraces pts)[i]? = some tr →
      (tr.mode = some ("markers+text") ↔ truthyStr p.annot = true) := by
  intro pts i p tr hp htr
  rw [figureTraces, getq_zipWith, hp, Option.some_bind] at htr
  rcases hd : (legendDecisions (selectOutliers pts))[i]? with _ | d
  · rw [hd] at htr; simp at htr
  · rw [hd] at htr
    simp only [Option.map_some', Option.some.injEq] at htr
    subst htr
    by_cases ht : truthyStr p.annot = true
    · simp [mkTrace, ht]
    · simp [mkTrace, ht]

/-- Witness for C7 at a one-point list with a non-empty annotation (candidate
set empty so the selector is a no-op). -/
theorem trace_mode_iff_truthy_w :
    (selectOutliers exW7)[0]? = some pNC2
    ∧ (figureTraces exW7)[0]? = some trW7
    ∧ (trW7.mode = some ("markers+text") ↔ truthyStr pNC2.annot = true) := by
  have h1 : selectOutliers exW7 = exW7 := selectOutliers_nil_cands (by decide)
  have h2 : (selectOutliers exW7)[0]? = some pNC2 := by rw [h1]; rfl
  have h3 : (figureTraces exW7)[0]? = some trW7 := by
    rw [figureTraces, h1]; decide
  exact ⟨h2, h3, trace_mode_iff_truthy exW7 0 pNC2 trW7 h2 h3⟩

/-- C7 counterexample: a point whose annotation key is present with the empty
string is not emitted in `"markers+text"` mode — presence alone does not
drive annotation mode. -/
theorem trace_mode_iff_truthy_cex :
    (ex7.map fun p => p.annot.isSome) = [true]
    ∧ (figureTraces ex7).map (fun tr => tr.mode) = [none]
    ∧ (none : Option String) ≠ some ("markers+text") := by
  have h1 : selectOutliers ex7 = ex7 := selectOutliers_nil_cands (by decide)
  refine ⟨by decide, ?_, by decide⟩
  rw [figureTraces, h1]
  decide

/-! ### C6 -/

lemma getq_append_ne (xs ys : List Point) (q q' : Point) :
    ∀ i : ℕ, i ≠ xs.length → (xs ++ q :: ys)[i]? = (xs ++ q' :: ys)[i]? := by
  induction xs with
  | nil =>
    intro i hi
    cases i with
    | zero => exact absurd rfl hi
    | succ j => simp
  | cons x xs ih =>
    intro i hi
    cases i with
    | zero => simp
    | succ j =>
      simp only [List.cons_append, List.getElem?_cons_succ]
      exact ih j (fun h => hi (by rw [List.length_cons, h]))

/-- C6: a point with `annotate = false` is never touched by the selector, and
its coordinates are excluded from the candidate statistics: replacing such a
point by any other non-candidate with the same annotation-presence leaves the
selector's output on every other position unchanged. -/
theorem selector_excludes_noncandidates :
    (∀ (pts : List Point) (i : ℕ) (p : Point), pts[i]? = some p →
        isCandidate p = false → (selectOutliers pts)[i]? = some p)
    ∧ ∀ (xs ys : List Point) (q q' : Point),
        isCandidate q = false → isCandidate q' = false →
        q.annot.isSome = q'.annot.isSome →
        ∀ i : ℕ, i ≠ xs.length →
          (selectOutliers (xs ++ q :: ys))[i]? = (selectOutliers (xs ++ q' :: ys))[i]? := by
  constructor
  · intro pts i p hi hc
    rw [selectOutliers]
    split
    · exact hi
    · split
      · split
        · rw [List.getElem?_map, hi, Option.map_some', if_neg (by simp [hc])]
        · exact hi
      · rw [List.getElem?_map, hi, Option.map_some', if_neg (by simp [hc])]
  · intro xs ys q q' hq hq' hann i hi
    have hcands : candidates (xs ++ q :: ys) = candidates (xs ++ q' :: ys) := by
      simp [candidates, List.filter_append, List.filter_cons, hq, hq']
    have hnann : nAnnotated (xs ++ q :: ys) = nAnnotated (xs ++ q' :: ys) := by
      simp [nAnnotated, List.countP_append, List.countP_cons, hann]
    have hstats : statsOf (xs ++ q :: ys) = statsOf (xs ++ q' :: ys) := by
      rw [statsOf, statsOf, hcands]
    have hnout : ∀ t, nOutliersAt (xs ++ q :: ys) t = nOutliersAt (xs ++ q' :: ys) t := by
      intro t; rw [nOutliersAt, nOutliersAt, hcands, hstats]
    have hcap : capOK (xs ++ q :: ys) = capOK (xs ++ q' :: ys) := by
      funext t; rw [capOK, capOK, hnann, hnout t]
    have hchosen : chosenThreshold (xs ++ q :: ys) = chosenThreshold (xs ++ q' :: ys) := by
      rw [chosenThreshold, chosenThreshold, hcap]
    simp only [selectOutliers]
    rw [hnann, hstats, hcands, hchosen]
    by_cases h10 : maxAnnotations ≤ nAnnotated (xs ++ q' :: ys)
    · rw [if_pos h10, if_pos h10]
      exact getq_append_ne xs ys q q' i hi
    · rw [if_neg h10, if_neg h10]
      by_cases hdeg : (statsOf (xs ++ q' :: ys)).vx = 0 ∧ (statsOf (xs ++ q' :: ys)).vy = 0
      · rw [if_pos hdeg, if_pos hdeg]
        by_cases hlen : (candidates (xs ++ q' :: ys)).length = 1
        · rw [if_pos hlen, if_pos hlen, List.getElem?_map, List.getElem?_map,
            getq_append_ne xs ys q q' i hi]
        · rw [if_neg hlen, if_neg hlen]
          exact getq_append_ne xs ys q q' i hi
      · rw [if_neg hdeg, if_neg hdeg, List.getElem?_map, List.getElem?_map,
          getq_append_ne xs ys q q' i hi]

/-- Witness for C6: swapping an extreme non-candidate point for a tame one
leaves the other point's outcome untouched, and the non-candidate itself is
returned unchanged. -/
theorem selector_excludes_noncandidates_w :
    isCandidate q6 = false ∧ isCandidate q6x = false
    ∧ q6.annot.isSome = q6x.annot.isSome
    ∧ (0 : ℕ) ≠ [pW6].length
    ∧ (selectOutliers ([pW6] ++ q6 :: []))[0]? = (selectOutliers ([pW6] ++ q6x :: []))[0]?
    ∧ (selectOutliers [pW6, q6])[1]? = some q6 :=
  ⟨by decide, by decide, by decide, by decide,
    selector_excludes_noncandidates.2 [pW6] [] q6 q6x (by decide) (by decide)
      (by decide) 0 (by decide),
    selector_excludes_noncandidates.1 [pW6, q6] 1 q6 rfl (by decide)⟩

/-! ### C1 -/

lemma countP_or_le {α : Type} (p q : α → Bool) (l : List α) :
    List.countP (fun a => p a || q a) l ≤ List.countP p l + List.countP q l := by
  induction l with
  | nil => simp
  | cons a l ih =>
    rw [List.countP_cons, List.countP_cons, List.countP_cons]
    cases hp : p a <;> cases hq : q a <;> simp [hp, hq] <;> omega

lemma truthy_isSome {o : Option String} (h : truthyStr o = true) : o.isSome = true := by
  cases o <;> simp_all [truthyStr]

/-- Bound on the annotated count after the conditional-annotation map. -/
lemma countP_truthy_map_le (pts : List Point) (c : Point → Bool) :
    List.countP (fun p => truthyStr p.annot)
        (pts.map fun p => if c p = true then setAnnot p else p)
      ≤ nAnnotated pts + List.countP c pts := by
  rw [List.countP_map]
  have h1 : List.countP
        ((fun p => truthyStr p.annot) ∘ fun p => if c p = true then setAnnot p else p) pts
      ≤ List.countP (fun p => p.annot.isSome || c p) pts := by
    apply List.countP_mono_left
    intro a _ h
    by_cases hc : c a = true
    · simp [hc]
    · simp only [Function.comp_apply, if_neg hc] at h
      simp [truthy_isSome h]
  have h2 := countP_or_le (fun p : Point => p.annot.isSome) (fun p => c p) pts
  exact le_trans h1 h2

lemma countP_ext {α : Type} (p q : α → Bool) (l : List α) (h : ∀ a, p a = q a) :
    List.countP p l = List.countP q l :=
  congrArg (fun f => List.countP f l) (funext h)

lemma countP_cand_out (pts : List Point) (t : ℚ) :
    List.countP (fun p => isCandidate p && isOutlierAt (statsOf pts) t p) pts
      = nOutliersAt pts t := by
  rw [nOutliersAt, candidates, List.filter_filter, ← List.countP_eq_length_filter]
  exact countP_ext _ _ pts fun a => Bool.and_comm _ _

/-- C1 (amended): the selector never removes an annotation, and after it runs
the count of non-empty-annotated points is within `MAX_ANNOTATIONS` unless
either the pre-existing count alone already exceeded the cap or the threshold
search exhausted its range without meeting the cap (in which case the cap is
advisory only). -/
theorem selector_cap :
    ∀ pts : List Point,
      (∀ (i : ℕ) (p : Point), pts[i]? = some p → p.annot.isSome = true →
        ∃ p', (selectOutliers pts)[i]? = some p' ∧ p'.annot.isSome = true)
      ∧ (nonEmptyAnnCount (selectOutliers pts) ≤ maxAnnotations
         ∨ maxAnnotations < nonEmptyAnnCount pts
         ∨ searchExhausted pts = true) := by
  intro pts
  constructor
  · intro i p hi hs
    rcases selectOutliers_getElem? pts i p hi with h | h
    · exact ⟨p, h, hs⟩
    · exact ⟨setAnnot p, h, by simp [setAnnot]⟩
  · have hmono : nonEmptyAnnCount pts ≤ nAnnotated pts :=
      List.countP_mono_left fun a _ h => truthy_isSome h
    rw [selectOutliers]
    split
    · rcases le_or_lt (nonEmptyAnnCount pts) maxAnnotations with h | h
      · exact Or.inl h
      · exact Or.inr (Or.inl h)
    · rename_i h10
      have h9 : nAnnotated pts ≤ maxAnnotations - 1 := by
        rw [maxAnnotations] at h10 ⊢; omega
      split
      · split
        · rename_i hlen
          left
          refine le_trans (countP_truthy_map_le pts isCandidate) ?_
          have hc1 : List.countP isCandidate pts = 1 := by
            rw [List.countP_eq_length_filter]
            exact hlen
          rw [hc1, maxAnnotations] at *
          omega
        · rcases le_or_lt (nonEmptyAnnCount pts) maxAnnotations with h | h
          · exact Or.inl h
          · exact Or.inr (Or.inl h)
      · rcases hfind : thresholdTried.find? (capOK pts) with _ | t
        · right; right
          rw [searchExhausted, hfind]
          rfl
        · left
          have hcap := List.find?_some hfind
          rw [capOK, decide_eq_true_eq] at hcap
          have hct : chosenThreshold pts = t := by
            rw [chosenThreshold, hfind]; rfl
          refine le_trans
            (countP_truthy_map_le pts
              (fun p => isCandidate p && isOutlierAt (statsOf pts) (chosenThreshold pts) p)) ?_
          rw [hct, countP_cand_out pts t]
          exact hcap

/-- Witness for C1 at a one-point annotated list. -/
theorem selector_cap_w :
    ([pAnn][0]? = some pAnn) ∧ pAnn.annot.isSome = true
    ∧ (∃ p', (selectOutliers [pAnn])[0]? = some p' ∧ p'.annot.isSome = true)
    ∧ (nonEmptyAnnCount (selectOutliers [pAnn]) ≤ maxAnnotations
       ∨ maxAnnotations < nonEmptyAnnCount [pAnn]
       ∨ searchExhausted [pAnn] = true) :=
  ⟨rfl, by decide, (selector_cap [pAnn]).1 0 pAnn rfl (by decide), (selector_cap [pAnn]).2⟩

/-! ### Evaluation of the concrete datasets `ex1` and `ex2` -/

lemma isOutlierAt_true_x {s : Stats} {t : ℚ} {p : Point} (hv : s.vx ≠ 0)
    (h : t ^ 2 * s.vx < (p.x - s.mx) ^ 2) : isOutlierAt s t p = true := by
  rw [isOutlierAt]
  simp [hv, h]

lemma isOutlierAt_true_y {s : Stats} {t : ℚ} {p : Point} (hv : s.vy ≠ 0)
    (h : t ^ 2 * s.vy < (p.y - s.my) ^ 2) : isOutlierAt s t p = true := by
  rw [isOutlierAt]
  simp [hv, h]

lemma isOutlierAt_false {s : Stats} {t : ℚ} {p : Point}
    (hx : ¬ (t ^ 2 * s.vx < (p.x - s.mx) ^ 2))
    (hy : ¬ (t ^ 2 * s.vy < (p.y - s.my) ^ 2)) : isOutlierAt s t p = false := by
  rw [isOutlierAt]
  simp [hx, hy]

lemma cands_ex1 : candidates ex1 = ex1 := by decide

lemma stats_ex1 : statsOf ex1 = ⟨1, 39, 1, 39⟩ := by
  have hx : ex1.map Point.x = 40 :: 0 :: (List.replicate 9 0 ++ List.replicate 29 0) := by
    decide
  have hy : ex1.map Point.y = 0 :: 40 :: (List.replicate 9 0 ++ List.replicate 29 0) := by
    decide
  rw [statsOf, cands_ex1, hx, hy]
  simp only [Stats.mk.injEq]
  refine ⟨?_, ?_, ?_, ?_⟩ <;>
    norm_num [qVar, qMean, List.sum_append, List.sum_replicate, List.map_append,
      List.map_replicate, List.length_append, List.length_replicate, nsmul_eq_mul]

lemma nann_ex1 : nAnnotated ex1 = 9 := by decide

lemma out_ex1_pA {t : ℚ} (h0 : 0 ≤ t) (h6 : t ≤ 6) :
    isOutlierAt ⟨1, 39, 1, 39⟩ t pA = true := by
  refine isOutlierAt_true_x (by norm_num) ?_
  show t ^ 2 * 39 < ((40 : ℚ) - 1) ^ 2
  nlinarith

lemma out_ex1_pB {t : ℚ} (h0 : 0 ≤ t) (h6 : t ≤ 6) :
    isOutlierAt ⟨1, 39, 1, 39⟩ t pB = true := by
  refine isOutlierAt_true_y (by norm_num) ?_
  show t ^ 2 * 39 < ((40 : ℚ) - 1) ^ 2
  nlinarith

lemma out_ex1_zero {t : ℚ} (h1 : 1 ≤ t) (p : Point) (hpx : p.x = 0) (hpy : p.y = 0) :
    isOutlierAt ⟨1, 39, 1, 39⟩ t p = false := by
  refine isOutlierAt_false ?_ ?_
  · rw [hpx]
    show ¬ (t ^ 2 * 39 < ((0 : ℚ) - 1) ^ 2)
    intro h
    nlinarith
  · rw [hpy]
    show ¬ (t ^ 2 * 39 < ((0 : ℚ) - 1) ^ 2)
    intro h
    nlinarith

lemma nout_ex1 {t : ℚ} (h1 : 1 ≤ t) (h6 : t ≤ 6) : nOutliersAt ex1 t = 2 := by
  have h0 : (0 : ℚ) ≤ t := le_trans zero_le_one h1
  rw [nOutliersAt, cands_ex1, stats_ex1, ex1]
  rw [List.filter_cons_of_pos (out_ex1_pA h0 h6), List.filter_cons_of_pos (out_ex1_pB h0 h6),
    List.filter_append, List.filter_replicate, List.filter_replicate,
    if_neg (by rw [out_ex1_zero h1 pAnn rfl rfl]; simp),
    if_neg (by rw [out_ex1_zero h1 pZ rfl rfl]; simp)]
  rfl

lemma bounds_tried : ∀ t ∈ thresholdTried, 1 ≤ t ∧ t ≤ 6 := by
  intro t ht
  fin_cases ht <;> norm_num

lemma one_le_exhaust : (1 : ℚ) ≤ exhaustThreshold := by
  rw [exhaustThreshold]; norm_num

lemma find_ex1 : thresholdTried.find? (capOK ex1) = none := by
  rw [List.find?_eq_none]
  intro t ht
  obtain ⟨h1, h6⟩ := bounds_tried t ht
  rw [capOK, nann_ex1, nout_ex1 h1 h6]
  decide

lemma chosen_ex1 : chosenThreshold ex1 = exhaustThreshold := by
  rw [chosenThreshold, find_ex1]
  rfl

lemma select_ex1 :
    selectOutliers ex1
      = setAnnot pA :: setAnnot pB :: (List.replicate 9 pAnn ++ List.replicate 29 pZ) := by
  have houtA : isOutlierAt ⟨1, 39, 1, 39⟩ exhaustThreshold pA = true := by
    refine isOutlierAt_true_x (by norm_num) ?_
    show ((6755399441055747 : ℚ) / 1125899906842624) ^ 2 * 39 < ((40 : ℚ) - 1) ^ 2
    norm_num
  have houtB : isOutlierAt ⟨1, 39, 1, 39⟩ exhaustThreshold pB = true := by
    refine isOutlierAt_true_y (by norm_num) ?_
    show ((6755399441055747 : ℚ) / 1125899906842624) ^ 2 * 39 < ((40 : ℚ) - 1) ^ 2
    norm_num
  have houtAnn := out_ex1_zero one_le_exhaust pAnn rfl rfl
  have houtZ := out_ex1_zero one_le_exhaust pZ rfl rfl
  rw [selectOutliers, if_neg (by rw [nann_ex1]; decide), stats_ex1,
    if_neg (by norm_num), chosen_ex1]
  rw [ex1]
  simp only [List.map_cons, List.map_append, List.map_replicate, houtA, houtB,
    houtAnn, houtZ]
  have hcA : isCandidate pA = true := by decide
  have hcB : isCandidate pB = true := by decide
  have hcAnn : isCandidate pAnn = true := by decide
  have hcZ : isCandidate pZ = true := by decide
  rw [hcA, hcB, hcAnn, hcZ]
  simp

/-- C1 counterexample: in `ex1` nine points are pre-annotated (within the
cap), yet after the selector runs eleven points carry non-empty annotations:
the threshold search exhausts its range and the cap is exceeded although the
pre-existing count alone did not exceed it. -/
theorem selector_cap_cex :
    nonEmptyAnnCount ex1 ≤ maxAnnotations
    ∧ maxAnnotations < nonEmptyAnnCount (selectOutliers ex1)
    ∧ nonEmptyAnnCount ex1 = 9
    ∧ nonEmptyAnnCount (selectOutliers ex1) = 11 := by
  refine ⟨by decide, ?_, by decide, ?_⟩ <;> rw [select_ex1] <;> decide

/-! ### C2 -/

lemma tried_sorted : List.Pairwise (· < ·) thresholdTried := by
  have hc : List.Chain' (fun a b : ℚ => a < b) thresholdTried := by
    rw [thresholdTried]
    norm_num [List.chain'_cons]
  exact List.chain'_iff_pairwise.mp hc

lemma find?_first_sorted {α : Type} [LinearOrder α] {p : α → Bool} :
    ∀ {l : List α}, l.Pairwise (· < ·) → ∀ {a : α}, l.find? p = some a →
      ∀ b ∈ l, b < a → p b = false := by
  intro l
  induction l with
  | nil => intro _ a h; simp at h
  | cons x xs ih =>
    intro hp a hfind b hb hba
    obtain ⟨hx, hxs⟩ := List.pairwise_cons.mp hp
    by_cases hpx : p x = true
    · rw [List.find?_cons_of_pos _ hpx, Option.some.injEq] at hfind
      subst hfind
      rcases List.mem_cons.mp hb with rfl | hb'
      · exact absurd hba (lt_irrefl _)
      · exact absurd hba (not_lt_of_gt (hx b hb'))
    · rw [List.find?_cons_of_neg _ hpx] at hfind
      rcases List.mem_cons.mp hb with rfl | hb'
      · exact Bool.eq_false_iff.mpr hpx
      · exact ih hxs hfind b hb' hba

/-- C2 (amended): the threshold search starts at `1.0` and increments by the
IEEE double `0.2` with accumulated rounding, trying 25 thresholds
`1.0, 1.2, ..., 5.8000000000000025`; every tried threshold lies in
`[1, 6)` and each step differs from adding the double `0.2` by less than
`2 ^ (-50)`, so `6.0` itself is never tried.  At each tried threshold the
search counts candidates whose x- or y-z-score exceeds it and stops at the
first tried threshold where `n_annotated + outlier_count ≤ 10`; when no tried
threshold satisfies the cap, the threshold used by the annotation step is the
post-loop accumulator `exhaustThreshold = 6.000000000000003` — strictly above
`6.0` and not equal to any tried value. -/
theorem threshold_search_char :
    ∀ pts : List Point,
      thresholdTried.head? = some 1
      ∧ thresholdTried.length = 25
      ∧ thresholdTried.getLast? = some (3265109729843611 / 562949953421312)
      ∧ (6 : ℚ) ∉ thresholdTried
      ∧ (∀ t ∈ thresholdTried, 1 ≤ t ∧ t < 6)
      ∧ List.Chain' (fun a b => |b - (a + dblFifth)| < 1 / 2 ^ 50) thresholdTried
      ∧ (6 : ℚ) < exhaustThreshold
      ∧ (∀ t : ℚ, thresholdTried.find? (capOK pts) = some t →
            chosenThreshold pts = t ∧ capOK pts t = true
            ∧ ∀ u ∈ thresholdTried, u < t → capOK pts u = false)
      ∧ (thresholdTried.find? (capOK pts) = none →
            chosenThreshold pts = exhaustThreshold
            ∧ ∀ u ∈ thresholdTried, capOK pts u = false) := by
  intro pts
  refine ⟨rfl, rfl, rfl, ?_, ?_, ?_, ?_, ?_, ?_⟩
  · norm_num [thresholdTried, List.mem_cons]
  · intro t ht
    fin_cases ht <;> norm_num
  · rw [thresholdTried]
    norm_num [List.chain'_cons, abs_lt, dblFifth]
  · rw [exhaustThreshold]
    norm_num
  · intro t hfind
    refine ⟨by rw [chosenThreshold, hfind]; rfl, List.find?_some hfind, ?_⟩
    intro u hu hut
    exact find?_first_sorted tried_sorted hfind u hu hut
  · intro hfind
    refine ⟨by rw [chosenThreshold, hfind]; rfl, ?_⟩
    intro u hu
    exact Bool.eq_false_iff.mpr (List.find?_eq_none.mp hfind u hu)

/-- Witness for C2 at the empty dataset: the search accepts the very first
threshold `1.0`. -/
theorem threshold_search_char_w :
    thresholdTried.find? (capOK []) = some 1
    ∧ chosenThreshold [] = 1 ∧ capOK [] 1 = true := by
  have hfind : thresholdTried.find? (capOK []) = some 1 := by
    rw [thresholdTried]
    exact List.find?_cons_of_pos _ (by decide)
  obtain ⟨-, -, -, -, -, -, -, hsome, -⟩ := threshold_search_char []
  exact ⟨hfind, (hsome 1 hfind).1, (hsome 1 hfind).2.1⟩

lemma cands_ex2 : candidates ex2 = ex2 := by decide

lemma stats_ex2 : statsOf ex2 = ⟨1, 37, 1, 37⟩ := by
  have hx : ex2.map Point.x = 38 :: 0 :: (List.replicate 9 0 ++ List.replicate 27 0) := by
    decide
  have hy : ex2.map Point.y = 0 :: 38 :: (List.replicate 9 0 ++ List.replicate 27 0) := by
    decide
  rw [statsOf, cands_ex2, hx, hy]
  simp only [Stats.mk.injEq]
  refine ⟨?_, ?_, ?_, ?_⟩ <;>
    norm_num [qVar, qMean, List.sum_append, List.sum_replicate, List.map_append,
      List.map_replicate, List.length_append, List.length_replicate, nsmul_eq_mul]

lemma nann_ex2 : nAnnotated ex2 = 9 := by decide

lemma out_ex2_pA2 {t : ℚ} (h0 : 0 ≤ t) (h6 : t ≤ 6) :
    isOutlierAt ⟨1, 37, 1, 37⟩ t pA2 = true := by
  refine isOutlierAt_true_x (by norm_num) ?_
  show t ^ 2 * 37 < ((38 : ℚ) - 1) ^ 2
  nlinarith

lemma out_ex2_pB2 {t : ℚ} (h0 : 0 ≤ t) (h6 : t ≤ 6) :
    isOutlierAt ⟨1, 37, 1, 37⟩ t pB2 = true := by
  refine isOutlierAt_true_y (by norm_num) ?_
  show t ^ 2 * 37 < ((38 : ℚ) - 1) ^ 2
  nlinarith

lemma out_ex2_zero {t : ℚ} (h1 : 1 ≤ t) (p : Point) (hpx : p.x = 0) (hpy : p.y = 0) :
    isOutlierAt ⟨1, 37, 1, 37⟩ t p = false := by
  refine isOutlierAt_false ?_ ?_
  · rw [hpx]
    show ¬ (t ^ 2 * 37 < ((0 : ℚ) - 1) ^ 2)
    intro h
    nlinarith
  · rw [hpy]
    show ¬ (t ^ 2 * 37 < ((0 : ℚ) - 1) ^ 2)
    intro h
    nlinarith

lemma nout_ex2 {t : ℚ} (h1 : 1 ≤ t) (h6 : t ≤ 6) : nOutliersAt ex2 t = 2 := by
  have h0 : (0 : ℚ) ≤ t := le_trans zero_le_one h1
  rw [nOutliersAt, cands_ex2, stats_ex2, ex2]
  rw [List.filter_cons_of_pos (out_ex2_pA2 h0 h6), List.filter_cons_of_pos (out_ex2_pB2 h0 h6),
    List.filter_append, List.filter_replicate, List.filter_replicate,
    if_neg (by rw [out_ex2_zero h1 pAnn rfl rfl]; simp),
    if_neg (by rw [out_ex2_zero h1 pZ rfl rfl]; simp)]
  rfl

lemma find_ex2 : thresholdTried.find? (capOK ex2) = none := by
  rw [List.find?_eq_none]
  intro t ht
  obtain ⟨h1, h6⟩ := bounds_tried t ht
  rw [capOK, nann_ex2, nout_ex2 h1 h6]
  decide

lemma chosen_ex2 : chosenThreshold ex2 = exhaustThreshold := by
  rw [chosenThreshold, find_ex2]
  rfl

lemma select_ex2 :
    selectOutliers ex2
      = setAnnot pA2 :: setAnnot pB2 :: (List.replicate 9 pAnn ++ List.replicate 27 pZ) := by
  have hA : isOutlierAt ⟨1, 37, 1, 37⟩ exhaustThreshold pA2 = true := by
    refine isOutlierAt_true_x (by norm_num) ?_
    show ((6755399441055747 : ℚ) / 1125899906842624) ^ 2 * 37 < ((38 : ℚ) - 1) ^ 2
    norm_num
  have hB : isOutlierAt ⟨1, 37, 1, 37⟩ exhaustThreshold pB2 = true := by
    refine isOutlierAt_true_y (by norm_num) ?_
    show ((6755399441055747 : ℚ) / 1125899906842624) ^ 2 * 37 < ((38 : ℚ) - 1) ^ 2
    norm_num
  have hAnn := out_ex2_zero one_le_exhaust pAnn rfl rfl
  have hZ := out_ex2_zero one_le_exhaust pZ rfl rfl
  rw [selectOutliers, if_neg (by rw [nann_ex2]; decide), stats_ex2,
    if_neg (by norm_num), chosen_ex2]
  rw [ex2]
  simp only [List.map_cons, List.map_append, List.map_replicate, hA, hB, hAnn, hZ]
  have hcA : isCandidate pA2 = true := by decide
  have hcB : isCandidate pB2 = true := by decide
  have hcAnn : isCandidate pAnn = true := by decide
  have hcZ : isCandidate pZ = true := by decide
  rw [hcA, hcB, hcAnn, hcZ]
  simp

/-- C2 counterexample: on `ex2` the search exhausts, and the claim's schedule
is false of the program: the last tried threshold is `5.8000000000000025`,
`6.0` is never tried, and the threshold used by the annotation step is the
post-loop accumulator `6.000000000000003`, which is neither `6.0` nor the
last threshold tried; the two `z ≈ 6.083` points are then annotated at that
threshold. -/
theorem threshold_search_cex :
    thresholdTried.find? (capOK ex2) = none
    ∧ chosenThreshold ex2 = exhaustThreshold
    ∧ exhaustThreshold ≠ 6
    ∧ thresholdTried.getLast? = some (3265109729843611 / 562949953421312)
    ∧ ((3265109729843611 : ℚ) / 562949953421312) ≠ 6
    ∧ exhaustThreshold ≠ (3265109729843611 : ℚ) / 562949953421312
    ∧ (6 : ℚ) ∉ thresholdTried
    ∧ (selectOutliers ex2).map (fun p => p.annot)
        = some "A" :: some "B" :: (List.replicate 9 (some "p") ++ List.replicate 27 none) := by
  refine ⟨find_ex2, chosen_ex2, by rw [exhaustThreshold]; norm_num, rfl, by norm_num,
    by rw [exhaustThreshold]; norm_num, ?_, ?_⟩
  · norm_num [thresholdTried, List.mem_cons]
  · rw [select_ex2]
    decide
